import Mathlib

/-!
The programs swfpack and cswf: container header, codec bridges and RECT decoding.

A shallow embedding of `src/swfpack.c` and `src/cswf.c`.

* Bytes are natural numbers (values below 256 in well-formed data).
* A buffer is the list of bytes that have been written at the start of an
  allocation.  Reading outside that range is undefined behaviour in C and is
  `none` here, so every function that touches memory returns an `Option`.
* `size_t` and `uint64_t` arithmetic wraps modulo `2 ^ 64`, `uint32_t`
  modulo `2 ^ 32`; multi-byte fields of packed structures are little-endian.
* zlib and liblzma are external: they are parameters (`Zlib`, `LzmaDecoder`,
  `LzmaEncoder`) giving, for the input handed to a call and the room left in
  the output buffer, the return code and the bytes written.
-/

namespace SWF

/-! ## Machine arithmetic -/

/-- Modulus of `size_t` and `uint64_t`. -/
def SIZE_MOD : Nat := 18446744073709551616

/-- Modulus of `uint32_t`. -/
def UINT32_MOD : Nat := 4294967296

/-- Subtraction `a - b` of two `size_t` values (both below `2 ^ 64`): the
result wraps modulo `2 ^ 64` when `b` is larger than `a`. -/
def size_sub (a b : Nat) : Nat := if b ≤ a then a - b else a + SIZE_MOD - b

/-- Little-endian encoding of `v` on `k` bytes (the value is truncated to `k` bytes). -/
def le_bytes : Nat → Nat → List Nat
  | 0, _ => []
  | k + 1, v => (v % 256) :: le_bytes k (v / 256)

/-- Little-endian value of a byte string. -/
def le_value : List Nat → Nat
  | [] => 0
  | b :: bs => b + 256 * le_value bs

/-- Bytes `[off, off + n)` of a buffer; `none` when the range is not inside the buffer. -/
def readAt (buf : List Nat) (off n : Nat) : Option (List Nat) :=
  if off + n ≤ buf.length then some ((buf.drop off).take n) else none

/-- A returned `void *`: `NULL`, or a buffer with the given contents. -/
inductive Ptr (α : Type) where
  | NULL : Ptr α
  | buf : α → Ptr α
  deriving DecidableEq

/-! ## Data model -/

/-- The value `SWF_SIGNATURE_F` of `enum SWF_signature`: the character `F`. -/
def SWF_SIGNATURE_F : Nat := 70

/-- The value `SWF_SIGNATURE_C` of `enum SWF_signature`: the character `C`. -/
def SWF_SIGNATURE_C : Nat := 67

/-- The value `SWF_SIGNATURE_Z` of `enum SWF_signature`: the character `Z`. -/
def SWF_SIGNATURE_Z : Nat := 90

/-- The packed 8-byte `struct SWF_header`. -/
structure SWF_header where
  signature : Nat × Nat × Nat
  version : Nat
  length : Nat
  deriving DecidableEq

/-- The size `sizeof(struct SWF_header)`. -/
def sizeof_SWF_header : Nat := 8

/-- The size `sizeof(struct SWF_header_ex)`. -/
def sizeof_SWF_header_ex : Nat := 4

/-- The size `sizeof(struct LZMA_header)`: 5 properties bytes and a `uint64_t`. -/
def sizeof_LZMA_header : Nat := 13

/-- The size `sizeof(struct LZMA_SWF_header)`: a `uint32_t` and 5 properties bytes. -/
def sizeof_LZMA_SWF_header : Nat := 9

/-- The 8 bytes of a `struct SWF_header` as `fwrite(&header, sizeof(header), 1, f)` emits them. -/
def header_bytes (h : SWF_header) : List Nat :=
  [h.signature.1, h.signature.2.1, h.signature.2.2, h.version] ++ le_bytes 4 h.length

/-! ## External codecs -/

/-- Return code `Z_OK` of zlib. -/
def Z_OK : Int := 0

/-- Return code `Z_STREAM_END` of zlib. -/
def Z_STREAM_END : Int := 1

/-- Return code `LZMA_OK` of liblzma. -/
def LZMA_OK : Int := 0

/-- Return code `LZMA_STREAM_END` of liblzma. -/
def LZMA_STREAM_END : Int := 1

/-- The zlib calls the programs make.  `inflate inp room` is
`inflate(&strm, Z_FINISH)` on a fresh stream with `next_in = inp` and
`avail_out = room`: the return code and the bytes written at `next_out`;
`deflate` likewise for `deflate(&strm, Z_FINISH)` after `deflateInit(&strm, 9)`.
The sizes handed to zlib are at most `header.length`, a `uint32_t`, so they fit
the 32-bit `avail_in` and `avail_out` of a `z_stream`. -/
structure Zlib where
  inflateInit : Int
  inflate : List Nat → Nat → Int × List Nat
  deflateInit : Int
  deflate : List Nat → Nat → Int × List Nat

/-- A liblzma decoder stream.  `init` is the return code of the decoder
initialiser; `lzma_code_RUN hdr room` is the first call
`lzma_code(&strm, LZMA_RUN)` with input `hdr`; `lzma_code_FINISH hdr room payload room2`
is the following call `lzma_code(&strm, LZMA_FINISH)` with input `payload`
and `room2` bytes of output left, on the stream the first call left behind. -/
structure LzmaDecoder where
  init : Int
  lzma_code_RUN : List Nat → Nat → Int × List Nat
  lzma_code_FINISH : List Nat → Nat → List Nat → Nat → Int × List Nat

/-- The liblzma encoder stream of `lzma_alone_encoder` with the extreme preset:
`init` is the initialiser return code and `lzma_code_FINISH inp room` the single
call `lzma_code(&strm, LZMA_FINISH)`. -/
structure LzmaEncoder where
  init : Int
  lzma_code_FINISH : List Nat → Nat → Int × List Nat

/-! ## RECT decoding and the header dump (inspect path) -/

/-- The inner loop `for (i = nbits; i; i--)` of the RECT decoding: `idx` is how
far `buffer` has been advanced, `bit` the bit cursor and `r` the value of
`rect[n]` so far.  Returns the cursor and the value after `i` bits. -/
def rect_field (buffer : List Nat) : Nat → Nat → Nat → Nat → Option (Nat × Nat × Nat)
  | 0, idx, bit, r => some (idx, bit, r)
  | i + 1, idx, bit, r =>
    match buffer.get? idx with
    | none => none
    | some b =>
      let r1 := if (b <<< bit) &&& 0x80 ≠ 0 then r ||| (1 <<< (i + 1 - 1)) else r
      if bit + 1 ≥ 8 then rect_field buffer i (idx + 1) 0 r1
      else rect_field buffer i idx (bit + 1) r1

/-- The outer loop `for (n = 0; n < 4; n++)` run for `k` fields, each starting from `rect[n] = 0`. -/
def rect_fields (buffer : List Nat) (nbits : Nat) : Nat → Nat → Nat → Option (List Nat × Nat × Nat)
  | 0, idx, bit => some ([], idx, bit)
  | k + 1, idx, bit =>
    match rect_field buffer nbits idx bit 0 with
    | none => none
    | some (idx1, bit1, r) =>
      match rect_fields buffer nbits k idx1 bit1 with
      | none => none
      | some (rs, idx2, bit2) => some (r :: rs, idx2, bit2)

/-- The RECT decoding of `main`: `nbits = buffer[0] >> 3`, `bit = 5`, then four
fields.  Returns `nbits`, the four values of `rect`, and the cursor (how far
`buffer` was advanced, and `bit`). -/
def decode_rect (buffer : List Nat) : Option (Nat × List Nat × Nat × Nat) :=
  match buffer.get? 0 with
  | none => none
  | some b0 =>
    let nbits := b0 >>> 3
    match rect_fields buffer nbits 4 0 5 with
    | none => none
    | some (rect, idx, bit) => some (nbits, rect, idx, bit)

/-- What the programs print on the inspect path. -/
structure Report where
  version : Nat
  signature : Nat × Nat × Nat
  compressed : Bool
  length : Nat
  frame_width : Nat
  frame_height : Nat
  frame_rate : Nat
  frame_count : Nat
  deriving DecidableEq

/-- The `else` branch of `main` (identical in both programs): decode the RECT
and read `struct SWF_header_ex` at `&buffer[1]` of the advanced pointer. -/
def dump_header (header : SWF_header) (buffer : List Nat) : Option Report :=
  match decode_rect buffer with
  | none => none
  | some (_, rect, idx, _) =>
    match readAt buffer (idx + 1) sizeof_SWF_header_ex with
    | none => none
    | some ex =>
      some { version := header.version
             signature := header.signature
             compressed := decide (header.signature.1 ≠ SWF_SIGNATURE_F)
             length := header.length
             frame_width := rect.getD 1 0 / 20
             frame_height := rect.getD 3 0 / 20
             frame_rate := le_value (ex.take 2)
             frame_count := le_value ((ex.drop 2).take 2) }

/-! ## Calls into the codecs -/

/-- One call into a codec with `inp` as input and `room` bytes left at
`next_out`.  A codec never writes more than `avail_out` bytes; one that did
would overflow the buffer (undefined, `none`). -/
def codec_call (f : List Nat → Nat → Int × List Nat) (inp : List Nat) (room : Nat) :
    Option (Int × List Nat) :=
  let r := f inp room
  if r.2.length ≤ room then some r else none

/-! ## Header parsing (both programs) -/

/-- Why a program stops with `EXIT_FAILURE`. -/
inductive Failure where
  | unable_to_read_header
  | not_a_SWF
  | decompression_failed
  | compression_failed
  deriving DecidableEq

/-- A step of `main` that either stops the program with a failure or goes on with a value. -/
inductive Res (α : Type) where
  | error : Failure → Res α
  | ok : α → Res α
  deriving DecidableEq

/-- The magic-number test of `main`: true when the header is NOT accepted. -/
def bad_magic (header : SWF_header) : Bool :=
  decide ((header.signature.1 ≠ SWF_SIGNATURE_F ∧ header.signature.1 ≠ SWF_SIGNATURE_C ∧
      header.signature.1 ≠ SWF_SIGNATURE_Z) ∨ header.signature.2.1 ≠ 87 ∨ header.signature.2.2 ≠ 83)

/-- The header `fread(&header, sizeof(header), 1, f_swf)` fills from the first 8 bytes. -/
def parse_header (f_swf : List Nat) : SWF_header :=
  { signature := (f_swf.getD 0 0, f_swf.getD 1 0, f_swf.getD 2 0)
    version := f_swf.getD 3 0
    length := le_value ((f_swf.drop 4).take 4) }

/-- The start of `main` in both programs: read the 8-byte header (87 is `W`,
83 is `S`), fail when fewer than 8 bytes are there or the magic number is wrong. -/
def read_header (f_swf : List Nat) : Res SWF_header :=
  if f_swf.length < sizeof_SWF_header then .error .unable_to_read_header
  else if bad_magic (parse_header f_swf) then .error .not_a_SWF
  else .ok (parse_header f_swf)

/-- The flags set by the command line. -/
structure Options where
  compress : Bool
  decompress : Bool
  use_lzma : Bool
  deriving DecidableEq

/-- How a run of `main` ends once the input stream is open: a failure, the
bytes written to the output (with whether the version warning was printed), or
the report printed on the inspect path. -/
inductive Outcome where
  | EXIT_FAILURE : Failure → Outcome
  | written : List Nat → Bool → Outcome
  | dumped : Report → Outcome
  deriving DecidableEq

namespace swfpack

/-- Lines 77-78 of `decompress_lzma`: the `struct LZMA_header` synthesised from
the properties of the `struct LZMA_SWF_header` at the start of `buffer` and
`header->length - sizeof(*header)`. -/
def lzma_header (header : SWF_header) (buffer : List Nat) : Option (List Nat) :=
  match readAt buffer 4 5 with
  | none => none
  | some properties => some (properties ++ le_bytes 8 (size_sub header.length sizeof_SWF_header))

/-- Lines 85-86 of `decompress_lzma`: the input of the second decoder call,
`size - sizeof(*swf_header)` bytes at `buffer + sizeof(*swf_header)`. -/
def lzma_payload (buffer : List Nat) (size : Nat) : Option (List Nat) :=
  readAt buffer sizeof_LZMA_SWF_header (size_sub size sizeof_LZMA_SWF_header)

/-- The function `decompress_lzma` of swfpack.c (`dec` is the `lzma_alone_decoder` stream).
The return code of the final `lzma_code` call is only printed. -/
def decompress_lzma (dec : LzmaDecoder) (header : SWF_header) (buffer : List Nat) (size : Nat) :
    Option (Ptr (List Nat)) :=
  if dec.init ≠ LZMA_OK then some .NULL
  else
    match lzma_header header buffer with
    | none => none
    | some hdr =>
      match codec_call dec.lzma_code_RUN hdr header.length with
      | none => none
      | some r1 =>
        if r1.1 ≠ LZMA_OK then some .NULL
        else
          match lzma_payload buffer size with
          | none => none
          | some payload =>
            match codec_call (dec.lzma_code_FINISH hdr header.length) payload
                (header.length - r1.2.length) with
            | none => none
            | some r2 => some (.buf (r1.2 ++ r2.2))

/-- Lines 133-146 of `compress_lzma`: `_buffer` holds what the encoder wrote,
`size` is `*size` (the allocation size) and `avail_out` is `strm.avail_out`.
The value `size_diff` is `9 - 13` as a `size_t`, so `_buffer - size_diff` points
4 bytes after `_buffer`.  The `memmove` reads bytes the encoder wrote and, like
the `memcpy` of the 9-byte header, writes inside the allocation.
Returns the buffer after the `memmove` and `memcpy`, and the new `*size`. -/
def lzma_repack (_buffer : List Nat) (size avail_out : Nat) : Option (List Nat × Nat) :=
  let size_diff := size_sub sizeof_LZMA_SWF_header sizeof_LZMA_header
  let size1 := size_sub size (size_sub avail_out size_diff)
  let length := size_sub size1 sizeof_LZMA_SWF_header % UINT32_MOD
  match readAt _buffer 0 5 with
  | none => none
  | some properties =>
    let swf_header := le_bytes 4 length ++ properties
    match readAt _buffer (size_sub 0 size_diff) size1 with
    | none => none
    | some moved =>
      if size1 ≤ size ∧ sizeof_LZMA_SWF_header ≤ size then
        some (swf_header ++ (moved ++ _buffer.drop size1).drop sizeof_LZMA_SWF_header, size1)
      else none

/-- The function `compress_lzma` of swfpack.c: the returned pointer and the value of `*size`. -/
def compress_lzma (enc : LzmaEncoder) (_header : SWF_header) (buffer : List Nat) (size : Nat) :
    Option (Ptr (List Nat) × Nat) :=
  if enc.init ≠ LZMA_OK then some (.NULL, size)
  else
    match readAt buffer 0 size with
    | none => none
    | some inp =>
      match codec_call enc.lzma_code_FINISH inp size with
      | none => none
      | some r =>
        if r.1 ≠ LZMA_STREAM_END then some (.NULL, size)
        else
          match lzma_repack r.2 size (size - r.2.length) with
          | none => none
          | some (b, size1) => some (.buf b, size1)

/-- The function `decompress_zlib` of swfpack.c. -/
def decompress_zlib (z : Zlib) (header : SWF_header) (buffer : List Nat) (size : Nat) :
    Option (Ptr (List Nat)) :=
  if z.inflateInit ≠ Z_OK then some .NULL
  else
    match readAt buffer 0 size with
    | none => none
    | some inp =>
      match codec_call z.inflate inp header.length with
      | none => none
      | some r => if r.1 ≠ Z_STREAM_END then some .NULL else some (.buf r.2)

/-- The function `compress_zlib` of swfpack.c: the returned pointer and the value of `*size`. -/
def compress_zlib (z : Zlib) (_header : SWF_header) (buffer : List Nat) (size : Nat) :
    Option (Ptr (List Nat) × Nat) :=
  if z.deflateInit ≠ Z_OK then some (.NULL, size)
  else
    match readAt buffer 0 size with
    | none => none
    | some inp =>
      match codec_call z.deflate inp size with
      | none => none
      | some r =>
        let size1 := size_sub size (size - r.2.length)
        if r.1 ≠ Z_STREAM_END then some (.NULL, size1) else some (.buf r.2, size1)

/-- Lines 287-310 of `main`: decompress unless the signature is `F`; afterwards
`size = header.length - sizeof(header)`. -/
def decompress_stage (z : Zlib) (dec : LzmaDecoder) (header : SWF_header) (buffer : List Nat)
    (size : Nat) : Option (Res (List Nat × Nat)) :=
  if header.signature.1 ≠ SWF_SIGNATURE_F then
    let tmp :=
      if header.signature.1 = SWF_SIGNATURE_C then decompress_zlib z header buffer size
      else if header.signature.1 = SWF_SIGNATURE_Z then decompress_lzma dec header buffer size
      else none
    match tmp with
    | none => none
    | some .NULL => some (.error .decompression_failed)
    | some (.buf t) => some (.ok (t, size_sub header.length sizeof_SWF_header))
  else some (.ok (buffer, size))

/-- The two `fwrite` calls of `main`: the header, then `size` bytes of `buffer`. -/
def write_file (header : SWF_header) (buffer : List Nat) (size : Nat) (warned : Bool) :
    Option Outcome :=
  match readAt buffer 0 size with
  | none => none
  | some payload => some (.written (header_bytes header ++ payload) warned)

/-- Lines 312-354 of `main`: rewrite `signature[0]`, compress when asked, write. -/
def convert (z : Zlib) (enc : LzmaEncoder) (opts : Options) (header : SWF_header)
    (buffer : List Nat) (size : Nat) : Option Outcome :=
  if opts.compress then
    if opts.use_lzma then
      match compress_lzma enc { header with signature := (SWF_SIGNATURE_Z, header.signature.2) }
          buffer size with
      | none => none
      | some (.NULL, _) => some (.EXIT_FAILURE .compression_failed)
      | some (.buf tmp, size1) =>
        write_file { header with signature := (SWF_SIGNATURE_Z, header.signature.2) } tmp size1
          (decide (header.version < 13))
    else
      match compress_zlib z { header with signature := (SWF_SIGNATURE_C, header.signature.2) }
          buffer size with
      | none => none
      | some (.NULL, _) => some (.EXIT_FAILURE .compression_failed)
      | some (.buf tmp, size1) =>
        write_file { header with signature := (SWF_SIGNATURE_C, header.signature.2) } tmp size1
          (decide (header.version < 6))
  else
    write_file { header with signature := (SWF_SIGNATURE_F, header.signature.2) } buffer size false

/-- The function `main` of swfpack.c from the point where the input stream `f_swf`
is open (option parsing and file opening are the command-line front end; the
stream is read without an I/O error and the output can be opened). -/
def main (z : Zlib) (dec : LzmaDecoder) (enc : LzmaEncoder) (opts : Options) (f_swf : List Nat) :
    Option Outcome :=
  match read_header f_swf with
  | .error e => some (.EXIT_FAILURE e)
  | .ok header =>
    let buffer := (f_swf.drop sizeof_SWF_header).take header.length
    match decompress_stage z dec header buffer buffer.length with
    | none => none
    | some (.error e) => some (.EXIT_FAILURE e)
    | some (.ok (buffer1, size1)) =>
      if opts.compress ∨ opts.decompress then convert z enc opts header buffer1 size1
      else (dump_header header buffer1).map Outcome.dumped

end swfpack

namespace cswf

/-- The function `decompress_lzma` of cswf.c (`dec` is the `lzma_auto_decoder` stream). -/
def decompress_lzma (dec : LzmaDecoder) (header : SWF_header) (buffer : List Nat) (size : Nat) :
    Option (Ptr (List Nat)) :=
  if dec.init ≠ LZMA_OK then some .NULL
  else
    match readAt buffer 4 5 with
    | none => none
    | some properties =>
      let hdr := properties ++ le_bytes 8 (size_sub header.length sizeof_SWF_header)
      match codec_call dec.lzma_code_RUN hdr header.length with
      | none => none
      | some r1 =>
        if r1.1 ≠ LZMA_OK then some .NULL
        else
          match readAt buffer sizeof_LZMA_SWF_header (size_sub size sizeof_LZMA_SWF_header) with
          | none => none
          | some payload =>
            match codec_call (dec.lzma_code_FINISH hdr header.length) payload
                (header.length - r1.2.length) with
            | none => none
            | some r2 => some (.buf (r1.2 ++ r2.2))

/-- The function `compress_lzma` of cswf.c: a stub returning `NULL`. -/
def compress_lzma (_header : SWF_header) (_buffer : List Nat) (_size : Nat) : Ptr (List Nat) :=
  .NULL

/-- The function `decompress_zlib` of cswf.c. -/
def decompress_zlib (z : Zlib) (header : SWF_header) (buffer : List Nat) (size : Nat) :
    Option (Ptr (List Nat)) :=
  if z.inflateInit ≠ Z_OK then some .NULL
  else
    match readAt buffer 0 size with
    | none => none
    | some inp =>
      match codec_call z.inflate inp header.length with
      | none => none
      | some r => if r.1 ≠ Z_STREAM_END then some .NULL else some (.buf r.2)

/-- The function `compress_zlib` of cswf.c: a stub returning `NULL`. -/
def compress_zlib (_header : SWF_header) (_buffer : List Nat) (_size : Nat) : Ptr (List Nat) :=
  .NULL

/-- Lines 197-216 of `main`: decompress unless the signature is `F` (`size` is not updated). -/
def decompress_stage (z : Zlib) (dec : LzmaDecoder) (header : SWF_header) (buffer : List Nat)
    (size : Nat) : Option (Res (List Nat)) :=
  if header.signature.1 ≠ SWF_SIGNATURE_F then
    let tmp :=
      if header.signature.1 = SWF_SIGNATURE_C then decompress_zlib z header buffer size
      else if header.signature.1 = SWF_SIGNATURE_Z then decompress_lzma dec header buffer size
      else none
    match tmp with
    | none => none
    | some .NULL => some (.error .decompression_failed)
    | some (.buf t) => some (.ok t)
  else some (.ok buffer)

/-- The two `fwrite` calls of `main`: the header, then
`header.length - sizeof(header)` bytes of `buffer`. -/
def write_file (header : SWF_header) (buffer : List Nat) (warned : Bool) : Option Outcome :=
  match readAt buffer 0 (size_sub header.length sizeof_SWF_header) with
  | none => none
  | some payload => some (.written (header_bytes header ++ payload) warned)

/-- Lines 218-260 of `main`: rewrite `signature[0]`, compress when asked, write. -/
def convert (opts : Options) (header : SWF_header) (buffer : List Nat) (size : Nat) :
    Option Outcome :=
  if opts.compress then
    if opts.use_lzma then
      match compress_lzma { header with signature := (SWF_SIGNATURE_Z, header.signature.2) }
          buffer size with
      | .NULL => some (.EXIT_FAILURE .compression_failed)
      | .buf tmp =>
        write_file { header with signature := (SWF_SIGNATURE_Z, header.signature.2) } tmp
          (decide (header.version < 13))
    else
      match compress_zlib { header with signature := (SWF_SIGNATURE_C, header.signature.2) }
          buffer size with
      | .NULL => some (.EXIT_FAILURE .compression_failed)
      | .buf tmp =>
        write_file { header with signature := (SWF_SIGNATURE_C, header.signature.2) } tmp
          (decide (header.version < 6))
  else
    write_file { header with signature := (SWF_SIGNATURE_F, header.signature.2) } buffer false

/-- The function `main` of cswf.c from the point where the input stream `f_swf` is open. -/
def main (z : Zlib) (dec : LzmaDecoder) (opts : Options) (f_swf : List Nat) : Option Outcome :=
  match read_header f_swf with
  | .error e => some (.EXIT_FAILURE e)
  | .ok header =>
    let buffer := (f_swf.drop sizeof_SWF_header).take header.length
    match decompress_stage z dec header buffer buffer.length with
    | none => none
    | some (.error e) => some (.EXIT_FAILURE e)
    | some (.ok buffer1) =>
      if opts.compress ∨ opts.decompress then convert opts header buffer1 buffer.length
      else (dump_header header buffer1).map Outcome.dumped

end cswf

/-! ## Specification-side definitions -/

/-- Bit number `p` of a byte string, counted from the most significant bit of byte 0. -/
def bitAt (body : List Nat) (p : Nat) : Nat := (body.getD (p / 8) 0 / 2 ^ (7 - p % 8)) % 2

/-- The unsigned big-endian (most significant bit first) value of the `w` bits
that start at bit position `pos`: bit `pos + j` has weight `2 ^ (w - 1 - j)`. -/
def msbValue (body : List Nat) (pos w : Nat) : Nat :=
  ((List.range w).map fun j => bitAt body (pos + j) * 2 ^ (w - 1 - j)).sum

/-- The byte offset of the end of the bit-packed rectangle with field width `w`,
a partial last byte rounded up: `ceil((5 + 4 * w) / 8)`. -/
def rect_end (w : Nat) : Nat := (5 + 4 * w + 7) / 8

/-- The signature the specification accepts: byte 0 is one of `F` (70), `C` (67),
`Z` (90), byte 1 is `W` (87) and byte 2 is `S` (83). -/
def valid_signature (f_swf : List Nat) : Prop :=
  (f_swf.getD 0 0 = 70 ∨ f_swf.getD 0 0 = 67 ∨ f_swf.getD 0 0 = 90) ∧
    f_swf.getD 1 0 = 87 ∧ f_swf.getD 2 0 = 83

instance (f_swf : List Nat) : Decidable (valid_signature f_swf) := by
  unfold valid_signature; infer_instance

/-- Native-framing inversion for liblzma on a body `B`, as the specification
words it: whenever the encoder compresses `B` into the `|B|` bytes it is given,
its result `E` has the 13-byte header of the format, the decoder initialises,
and fed the encoder's own stream (the 13 header bytes of `E` on the first call,
the rest of `E` on the final call, `|B| + 8` bytes of room) has written `B`. -/
def lzma_native_inverts (enc : LzmaEncoder) (dec : LzmaDecoder) (B : List Nat) : Prop :=
  ∀ E, enc.lzma_code_FINISH B B.length = (LZMA_STREAM_END, E) →
    13 ≤ E.length ∧ dec.init = LZMA_OK ∧
    ∃ o1, dec.lzma_code_RUN (E.take 13) (B.length + 8) = (LZMA_OK, o1) ∧
      o1 ++ (dec.lzma_code_FINISH (E.take 13) (B.length + 8)
        (E.drop 13) (B.length + 8 - o1.length)).2 = B

/-- Inversion for liblzma on the header the bridge synthesises, for a body `B`.
The function `compress_lzma` drops the encoder's 8-byte length field and
`decompress_lzma` puts `total_length - 8 = |B|` in its place, so the decoder
never sees the encoder's own header.  The assumption: whenever the encoder
compresses `B` into the `|B|` bytes it is given, its result `E` has the 13-byte
header of the format, the decoder initialises, accepts the header made of the
first 5 bytes of `E` (the properties) and the 8-byte length `|B|`, and, fed the
rest of `E` after its 13-byte header, has written `B` over the two calls.  The
return code of the final call is not constrained. -/
def lzma_bridge_inverts (enc : LzmaEncoder) (dec : LzmaDecoder) (B : List Nat) : Prop :=
  ∀ E, enc.lzma_code_FINISH B B.length = (LZMA_STREAM_END, E) →
    13 ≤ E.length ∧ dec.init = LZMA_OK ∧
    ∃ o1, dec.lzma_code_RUN (E.take 5 ++ le_bytes 8 B.length) (B.length + 8) = (LZMA_OK, o1) ∧
      o1 ++ (dec.lzma_code_FINISH (E.take 5 ++ le_bytes 8 B.length) (B.length + 8)
        (E.drop 13) (B.length + 8 - o1.length)).2 = B

/-! ## Small concrete codecs, used to evaluate the programs on concrete inputs -/

/-- A run-length stand-in for zlib: `deflate` stores the input length in one
byte, `inflate` writes that many zero bytes (as many as fit). -/
def zeroZlib : Zlib where
  inflateInit := Z_OK
  inflate := fun inp room =>
    if inp.headD 0 ≤ room then (Z_STREAM_END, List.replicate (inp.headD 0) 0)
    else (-5, List.replicate room 0)
  deflateInit := Z_OK
  deflate := fun inp room => if 1 ≤ room then (Z_STREAM_END, [inp.length]) else (-5, [])

/-- A run-length stand-in for the liblzma encoder: 5 properties bytes, an
8-byte length field of `0xFF` bytes, and a 1-byte payload holding the input length. -/
def zeroEncoder : LzmaEncoder where
  init := LZMA_OK
  lzma_code_FINISH := fun inp room =>
    if 14 ≤ room then (LZMA_STREAM_END, [93, 0, 0, 128, 0] ++ List.replicate 8 255 ++ [inp.length])
    else (10, [])

/-- A run-length stand-in for the liblzma decoder: the first call accepts the
13-byte header without output; the final call writes as many zero bytes as the
first payload byte says (as many as fit) and reports 9 (`LZMA_DATA_ERROR`), or
writes nothing and reports 10 (`LZMA_BUF_ERROR`) when there is no payload. -/
def zeroDecoder : LzmaDecoder where
  init := LZMA_OK
  lzma_code_RUN := fun hdr _ => if hdr.length = 13 then (LZMA_OK, []) else (9, [])
  lzma_code_FINISH := fun _ _ payload room2 =>
    if payload = [] then (10, [])
    else (9, List.replicate (min (payload.headD 0) room2) 0)

theorem msbValue_zero (body : List Nat) (pos : Nat) : msbValue body pos 0 = 0 := by
  simp [msbValue]

theorem msbValue_succ (body : List Nat) (pos w : Nat) :
    msbValue body pos (w + 1) = bitAt body pos * 2 ^ w + msbValue body (pos + 1) w := by
  unfold msbValue
  rw [List.range_succ_eq_map]
  simp only [List.map_cons, List.sum_cons, List.map_map, Nat.add_zero, Nat.add_sub_cancel,
    Nat.sub_zero]
  congr 2
  apply List.map_congr_left
  intro j _
  simp only [Function.comp, Nat.succ_eq_add_one]
  have h1 : pos + (j + 1) = pos + 1 + j := by omega
  have h2 : w - (j + 1) = w - 1 - j := by omega
  rw [h1, h2]

/-- The test `(buffer[0] << bit) & 0x80` looks at bit `7 - bit` of the byte. -/
theorem bit_test (b bit : Nat) (hbit : bit < 8) :
    ((b <<< bit) &&& 0x80 ≠ 0) ↔ (b / 2 ^ (7 - bit)) % 2 = 1 := by
  have h128 : (0x80 : Nat) = 2 ^ 7 := by norm_num
  rw [h128, Nat.and_two_pow, Nat.testBit_shiftLeft, Nat.testBit_to_div_mod]
  have hge : 7 ≥ bit := by omega
  by_cases h : b / 2 ^ (7 - bit) % 2 = 1 <;> simp [h, hge]

/-- Setting bit `i` of a value whose low `i + 1` bits are clear adds `2 ^ i`. -/
theorem or_bit (r i : Nat) (h : 2 ^ (i + 1) ∣ r) : r ||| (1 <<< (i + 1 - 1)) = r + 2 ^ i := by
  obtain ⟨a, rfl⟩ := h
  have hlt : 2 ^ i < 2 ^ (i + 1) := Nat.pow_lt_pow_right (by norm_num) (by omega)
  rw [Nat.add_sub_cancel, Nat.one_shiftLeft, ← Nat.mul_add_lt_is_or hlt]

/-- The inner loop started at bit position `p` with `i` bits to go adds the
big-endian value of those `i` bits and leaves the cursor at bit `p + i`. -/
theorem rect_field_spec (buffer : List Nat) :
    ∀ (i p r : Nat), p + i ≤ 8 * buffer.length → 2 ^ i ∣ r →
      rect_field buffer i (p / 8) (p % 8) r
        = some ((p + i) / 8, (p + i) % 8, r + msbValue buffer p i) := by
  intro i
  induction i with
  | zero => intro p r _ _; simp [rect_field, msbValue_zero]
  | succ i ih =>
    intro p r hp hr
    have hidx : p / 8 < buffer.length := by omega
    have hget : buffer.get? (p / 8) = some (buffer.getD (p / 8) 0) := by
      simp [List.getD_eq_getElem?_getD, List.getElem?_eq_getElem hidx]
    have hbit : p % 8 < 8 := Nat.mod_lt _ (by norm_num)
    have hval : (if (buffer.getD (p / 8) 0 <<< (p % 8)) &&& 0x80 ≠ 0
          then r ||| (1 <<< (i + 1 - 1)) else r) = r + bitAt buffer p * 2 ^ i := by
      have hb2 : bitAt buffer p = 0 ∨ bitAt buffer p = 1 := by
        unfold bitAt; omega
      by_cases ht : (buffer.getD (p / 8) 0 <<< (p % 8)) &&& 0x80 ≠ 0
      · rw [if_pos ht, or_bit r i hr]
        have : bitAt buffer p = 1 := (bit_test _ _ hbit).mp ht
        rw [this, Nat.one_mul]
      · rw [if_neg ht]
        have : bitAt buffer p = 0 := by
          rcases hb2 with h | h
          · exact h
          · exact absurd ((bit_test _ _ hbit).mpr h) ht
        rw [this]; simp
    have hdiv : 2 ^ i ∣ r + bitAt buffer p * 2 ^ i :=
      Dvd.dvd.add (Dvd.dvd.trans ⟨2, by rw [pow_succ]⟩ hr) (Dvd.intro_left _ rfl)
    have hnext := ih (p + 1) (r + bitAt buffer p * 2 ^ i) (by omega) hdiv
    rw [rect_field, hget]
    simp only [hval]
    rw [msbValue_succ]
    have e1 : p + (i + 1) = p + 1 + i := by omega
    rw [e1, ← Nat.add_assoc, ← hnext]
    by_cases h8 : p % 8 + 1 ≥ 8
    · rw [if_pos h8]
      have a1 : (p + 1) / 8 = p / 8 + 1 := by omega
      have a2 : (p + 1) % 8 = 0 := by omega
      rw [a1, a2]
    · rw [if_neg h8]
      have a1 : (p + 1) / 8 = p / 8 := by omega
      have a2 : (p + 1) % 8 = p % 8 + 1 := by omega
      rw [a1, a2]

/-- The outer loop started at bit position `p`: `k` fields of `w` bits each, back to back. -/
theorem rect_fields_spec (buffer : List Nat) (w : Nat) :
    ∀ (k p : Nat), p + k * w ≤ 8 * buffer.length →
      rect_fields buffer w k (p / 8) (p % 8)
        = some ((List.range k).map (fun j => msbValue buffer (p + j * w) w),
            (p + k * w) / 8, (p + k * w) % 8) := by
  intro k
  induction k with
  | zero => intro p _; simp [rect_fields]
  | succ k ih =>
    intro p hp
    have hk : (k + 1) * w = w + k * w := by ring
    have h1 := rect_field_spec buffer w p 0 (by omega) (dvd_zero _)
    have h2 := ih (p + w) (by omega)
    rw [rect_fields, h1]
    simp only [h2, Nat.zero_add]
    rw [List.range_succ_eq_map]
    simp only [List.map_cons, List.map_map, Nat.zero_mul, Nat.add_zero]
    have e : p + (k + 1) * w = p + w + k * w := by omega
    rw [e]
    congr 3
    apply List.map_congr_left
    intro j _
    simp only [Function.comp, Nat.succ_eq_add_one]
    have : p + (j + 1) * w = p + w + j * w := by ring
    rw [this]

/-- The RECT decoding on a body that holds the whole rectangle record. -/
theorem decode_rect_spec (body : List Nat)
    (hlen : 5 + 4 * (body.getD 0 0 >>> 3) ≤ 8 * body.length) :
    decode_rect body
      = some (body.getD 0 0 >>> 3,
          (List.range 4).map (fun k => msbValue body (5 + k * (body.getD 0 0 >>> 3))
            (body.getD 0 0 >>> 3)),
          (5 + 4 * (body.getD 0 0 >>> 3)) / 8, (5 + 4 * (body.getD 0 0 >>> 3)) % 8) := by
  have hpos : 0 < body.length := by omega
  have hget : body.get? 0 = some (body.getD 0 0) := by
    simp [List.getD_eq_getElem?_getD, List.getElem?_eq_getElem hpos]
  have h := rect_fields_spec body (body.getD 0 0 >>> 3) 4 5 hlen
  have e1 : (5 : Nat) / 8 = 0 := by norm_num
  have e2 : (5 : Nat) % 8 = 5 := by norm_num
  rw [e1, e2] at h
  rw [decode_rect, hget]
  simp only [h]

/-- The top five bits of a byte, read most significant bit first, are `byte >> 3`. -/
theorem top5 (body : List Nat) (hb : body.getD 0 0 < 256) :
    msbValue body 0 5 = body.getD 0 0 >>> 3 := by
  simp only [msbValue, bitAt, List.range, List.range.loop, List.map, List.sum_cons, List.sum_nil]
  rw [Nat.shiftRight_eq_div_pow]
  norm_num
  rw [List.getD_eq_getElem?_getD] at hb
  omega

/-! ## Geometry decoding (inspect path) -/

/-- C3: on a body long enough to hold the rectangle record, the RECT decoding of
the inspect path takes the field width `w` from the top 5 bits of byte 0 (so
`w ≤ 31`) and returns four values, the `k`-th being the unsigned
most-significant-bit-first value of the `w` bits starting at bit `5 + k * w`, in
the order `x_min, x_max, y_min, y_max`, with no alignment between fields; the
cursor ends at bit `5 + 4 * w`.  With `w = 0` all four values are 0 and the
cursor stays at byte 0, bit 5. -/
theorem rect_decode_msb_first (body : List Nat) (w : Nat) (hb : body.getD 0 0 < 256)
    (hw : w = msbValue body 0 5) (hlen : 5 + 4 * w ≤ 8 * body.length) :
    w ≤ 31 ∧
    decode_rect body
      = some (w, [msbValue body 5 w, msbValue body (5 + w) w, msbValue body (5 + 2 * w) w,
          msbValue body (5 + 3 * w) w], (5 + 4 * w) / 8, (5 + 4 * w) % 8) ∧
    (w = 0 → decode_rect body = some (0, [0, 0, 0, 0], 0, 5)) := by
  have hw2 : w = body.getD 0 0 >>> 3 := by rw [hw, top5 body hb]
  have hdec := decode_rect_spec body (by rw [← hw2]; exact hlen)
  rw [← hw2] at hdec
  have hmain : decode_rect body
      = some (w, [msbValue body 5 w, msbValue body (5 + w) w, msbValue body (5 + 2 * w) w,
          msbValue body (5 + 3 * w) w], (5 + 4 * w) / 8, (5 + 4 * w) % 8) := by
    rw [hdec]
    simp [List.range, List.range.loop]
  refine ⟨?_, hmain, ?_⟩
  · rw [hw2, Nat.shiftRight_eq_div_pow]
    have : 2 ^ 3 = 8 := by norm_num
    omega
  · intro h0
    rw [hmain, h0]
    simp [msbValue_zero]

/-- C3, the fixture of the specification: width bits `00101`, then the 5-bit
fields `00000 01010 00000 00100`, decode to the rectangle `0, 10, 0, 4`. -/
theorem rect_decode_msb_first_witness :
    decode_rect [0x28, 0x14, 0x02, 0x00] = some (5, [0, 10, 0, 4], 3, 1) := by
  have h := (rect_decode_msb_first [0x28, 0x14, 0x02, 0x00] 5 (by decide) (by decide)
    (by decide)).2.1
  rw [h]
  decide

/-- C7: for every field width `w` and every body long enough, the byte the RECT
decoding stops in is byte `(5 + 4 * w) / 8`, the offset the inspect path uses
for `struct SWF_header_ex` (that index plus one) is `ceil((5 + 4 * w) / 8)`,
which is one past the byte holding the last rectangle bit, and the frame rate
and frame count printed are the two little-endian 16-bit values at that offset. -/
theorem frame_info_offset (header : SWF_header) (body : List Nat) (w : Nat)
    (hw : w = body.getD 0 0 >>> 3) (hlen : rect_end w + 4 ≤ body.length) :
    (∃ rect idx bit, decode_rect body = some (w, rect, idx, bit) ∧
        idx = (5 + 4 * w) / 8 ∧ idx + 1 = rect_end w) ∧
    (5 + 4 * w - 1) / 8 + 1 = rect_end w ∧
    ∃ r, dump_header header body = some r ∧
      r.frame_rate = le_value ((body.drop (rect_end w)).take 2) ∧
      r.frame_count = le_value ((body.drop (rect_end w + 2)).take 2) := by
  have hre : rect_end w = (5 + 4 * w) / 8 + 1 := by unfold rect_end; omega
  have hdec := decode_rect_spec body (by rw [← hw]; rw [hre] at hlen; omega)
  rw [← hw] at hdec
  refine ⟨⟨_, _, _, hdec, rfl, hre.symm⟩, ?_, ?_⟩
  · rw [hre]; omega
  · have hread : readAt body ((5 + 4 * w) / 8 + 1) sizeof_SWF_header_ex
        = some ((body.drop (rect_end w)).take 4) := by
      unfold readAt sizeof_SWF_header_ex
      rw [if_pos (by rw [hre] at hlen; exact hlen), hre]
    simp only [dump_header, hdec, hread]
    refine ⟨_, rfl, ?_, ?_⟩
    · simp [List.take_take]
    · simp [List.drop_take, List.drop_drop, List.take_take, Nat.add_comm]

/-- C7 at the fixture: width 5, the rectangle ends in byte 3, the frame rate
and count are read at offset 4. -/
theorem frame_info_offset_witness :
    rect_end 5 = 4 ∧
    ∃ r, dump_header ⟨(70, 87, 83), 10, 20⟩ [0x28, 0x14, 0x02, 0x00, 12, 0, 1, 0] = some r ∧
      r.frame_rate = 12 ∧ r.frame_count = 1 := by
  obtain ⟨r, h1, h2, h3⟩ := (frame_info_offset ⟨(70, 87, 83), 10, 20⟩
    [0x28, 0x14, 0x02, 0x00, 12, 0, 1, 0] 5 (by decide) (by decide)).2.2
  exact ⟨by decide, r, h1, by rw [h2]; decide, by rw [h3]; decide⟩

/-! ## Header parsing -/

theorem le_value_le_bytes4 (v : Nat) : le_value (le_bytes 4 v) = v % UINT32_MOD := by
  simp only [le_bytes, le_value, UINT32_MOD]
  omega

theorem le_bytes_length (k v : Nat) : (le_bytes k v).length = k := by
  induction k generalizing v with
  | zero => rfl
  | succ k ih => simp [le_bytes, ih]

theorem parse_header_bytes (h : SWF_header) (rest : List Nat) :
    parse_header (header_bytes h ++ rest) = { h with length := h.length % UINT32_MOD } := by
  have h4 : le_value (List.take 4 (List.drop 4 (header_bytes h ++ rest))) = h.length % UINT32_MOD := by
    rw [← le_value_le_bytes4]
    simp [header_bytes, le_bytes]
  unfold parse_header
  rw [h4]
  simp [header_bytes]

theorem header_bytes_length (h : SWF_header) : (header_bytes h).length = 8 := by
  simp [header_bytes, le_bytes_length]

theorem bad_magic_iff (f_swf : List Nat) :
    bad_magic (parse_header f_swf) = true ↔ ¬ valid_signature f_swf := by
  simp only [bad_magic, parse_header, valid_signature, SWF_SIGNATURE_F, SWF_SIGNATURE_C,
    SWF_SIGNATURE_Z, decide_eq_true_eq]
  tauto

theorem read_header_ok_iff (f_swf : List Nat) (h8 : 8 ≤ f_swf.length) :
    read_header f_swf = .ok (parse_header f_swf) ↔ valid_signature f_swf := by
  have hlt : ¬ f_swf.length < sizeof_SWF_header := by unfold sizeof_SWF_header; omega
  unfold read_header
  rw [if_neg hlt]
  by_cases hv : valid_signature f_swf
  · have : ¬ bad_magic (parse_header f_swf) = true := fun hb => (bad_magic_iff f_swf).mp hb hv
    simp [this, hv]
  · have : bad_magic (parse_header f_swf) = true := (bad_magic_iff f_swf).mpr hv
    simp [this, hv]

theorem read_header_bad (f_swf : List Nat) (h8 : 8 ≤ f_swf.length)
    (hv : ¬ valid_signature f_swf) : read_header f_swf = .error .not_a_SWF := by
  have hlt : ¬ f_swf.length < sizeof_SWF_header := by unfold sizeof_SWF_header; omega
  unfold read_header
  rw [if_neg hlt, if_pos ((bad_magic_iff f_swf).mpr hv)]

theorem swfpack_stage_error (z : Zlib) (dec : LzmaDecoder) (header : SWF_header)
    (buffer : List Nat) (size : Nat) (e : Failure)
    (h : swfpack.decompress_stage z dec header buffer size = some (.error e)) :
    e = .decompression_failed := by
  unfold swfpack.decompress_stage at h
  split at h
  · simp only at h
    split at h <;> simp at h
    exact h.symm
  · simp at h

theorem cswf_stage_error (z : Zlib) (dec : LzmaDecoder) (header : SWF_header)
    (buffer : List Nat) (size : Nat) (e : Failure)
    (h : cswf.decompress_stage z dec header buffer size = some (.error e)) :
    e = .decompression_failed := by
  unfold cswf.decompress_stage at h
  split at h
  · simp only at h
    split at h <;> simp at h
    exact h.symm
  · simp at h

theorem write_file_ne (header : SWF_header) (buffer : List Nat) (size : Nat) (warned : Bool)
    (f : Failure) :
    swfpack.write_file header buffer size warned ≠ some (.EXIT_FAILURE f) := by
  unfold swfpack.write_file
  cases readAt buffer 0 size <;> simp

theorem swfpack_convert_ne (z : Zlib) (enc : LzmaEncoder) (opts : Options) (header : SWF_header)
    (buffer : List Nat) (size : Nat) :
    swfpack.convert z enc opts header buffer size ≠ some (.EXIT_FAILURE .not_a_SWF) := by
  unfold swfpack.convert
  intro h
  split at h
  · split at h
    · split at h
      · simp at h
      · simp at h
      · exact write_file_ne _ _ _ _ _ h
    · split at h
      · simp at h
      · simp at h
      · exact write_file_ne _ _ _ _ _ h
  · exact write_file_ne _ _ _ _ _ h

theorem cswf_write_file_ne (header : SWF_header) (buffer : List Nat) (warned : Bool)
    (f : Failure) :
    cswf.write_file header buffer warned ≠ some (.EXIT_FAILURE f) := by
  unfold cswf.write_file
  cases readAt buffer 0 (size_sub header.length sizeof_SWF_header) <;> simp

theorem cswf_convert_ne (opts : Options) (header : SWF_header) (buffer : List Nat) (size : Nat) :
    cswf.convert opts header buffer size ≠ some (.EXIT_FAILURE .not_a_SWF) := by
  unfold cswf.convert cswf.compress_lzma cswf.compress_zlib
  intro h
  split at h
  · split at h <;> simp at h
  · exact cswf_write_file_ne _ _ _ _ h

theorem dumped_ne (r : Option Report) :
    r.map Outcome.dumped ≠ some (.EXIT_FAILURE .not_a_SWF) := by
  cases r <;> simp

/-- C2: for every input with a full 8-byte envelope, both programs accept the
header exactly when byte 0 is one of `F`, `C`, `Z`, byte 1 is `W` and byte 2 is
`S`; with any other envelope `main` of swfpack and `main` of cswf stop with the
"not a SWF format" failure, whatever the flags, the payload and the codecs are
(nothing is read, decompressed, reported or written), and with an accepted
envelope they never stop with that failure. -/
theorem magic_check (z : Zlib) (dec : LzmaDecoder) (enc : LzmaEncoder) (opts : Options)
    (f_swf : List Nat) (h8 : 8 ≤ f_swf.length) :
    (read_header f_swf = .ok (parse_header f_swf) ↔ valid_signature f_swf) ∧
    (swfpack.main z dec enc opts f_swf = some (.EXIT_FAILURE .not_a_SWF)
      ↔ ¬ valid_signature f_swf) ∧
    (cswf.main z dec opts f_swf = some (.EXIT_FAILURE .not_a_SWF)
      ↔ ¬ valid_signature f_swf) := by
  refine ⟨read_header_ok_iff f_swf h8, ⟨?_, ?_⟩, ⟨?_, ?_⟩⟩
  · intro h hv
    have hr := (read_header_ok_iff f_swf h8).mpr hv
    unfold swfpack.main at h
    rw [hr] at h
    simp only at h
    split at h
    · simp at h
    · rename_i e he
      have := swfpack_stage_error _ _ _ _ _ _ he
      subst this
      simp at h
    · split at h
      · exact swfpack_convert_ne _ _ _ _ _ _ h
      · exact dumped_ne _ h
  · intro hv
    unfold swfpack.main
    rw [read_header_bad f_swf h8 hv]
  · intro h hv
    have hr := (read_header_ok_iff f_swf h8).mpr hv
    unfold cswf.main at h
    rw [hr] at h
    simp only at h
    split at h
    · simp at h
    · rename_i e he
      have := cswf_stage_error _ _ _ _ _ _ he
      subst this
      simp at h
    · split at h
      · exact cswf_convert_ne _ _ _ _ h
      · exact dumped_ne _ h
  · intro hv
    unfold cswf.main
    rw [read_header_bad f_swf h8 hv]

/-- C2 at the envelope `XWS`: both programs stop with the "not a SWF format"
failure on the convert path (here with the LZMA compress flag, on a payload
that is never looked at). -/
theorem magic_check_witness :
    swfpack.main zeroZlib zeroDecoder zeroEncoder ⟨true, false, true⟩
        [88, 87, 83, 10, 12, 0, 0, 0, 1, 2, 3, 4] = some (.EXIT_FAILURE .not_a_SWF) ∧
    cswf.main zeroZlib zeroDecoder ⟨true, false, true⟩
        [88, 87, 83, 10, 12, 0, 0, 0, 1, 2, 3, 4] = some (.EXIT_FAILURE .not_a_SWF) := by
  have h := magic_check zeroZlib zeroDecoder zeroEncoder ⟨true, false, true⟩
    [88, 87, 83, 10, 12, 0, 0, 0, 1, 2, 3, 4] (by decide)
  exact ⟨h.2.1.mpr (by decide), h.2.2.mpr (by decide)⟩

/-! ## `size_t` arithmetic and buffer reads -/

theorem size_sub_of_le (a b : Nat) (h : b ≤ a) : size_sub a b = a - b := by
  unfold size_sub
  rw [if_pos h]

theorem size_sub_of_lt (a b : Nat) (h : a < b) : size_sub a b = a + SIZE_MOD - b := by
  unfold size_sub
  rw [if_neg (by omega)]

theorem size_diff_eq : size_sub sizeof_LZMA_SWF_header sizeof_LZMA_header = SIZE_MOD - 4 := by
  rw [size_sub_of_lt _ _ (by decide)]
  rfl

theorem readAt_zero (buf : List Nat) (n : Nat) (h : n ≤ buf.length) :
    readAt buf 0 n = some (buf.take n) := by
  unfold readAt
  rw [if_pos (by omega)]
  rfl

theorem readAt_full (buf : List Nat) : readAt buf 0 buf.length = some buf := by
  rw [readAt_zero buf _ (Nat.le_refl _), List.take_length]

theorem take_append_len (a b : List Nat) (n : Nat) (h : a.length = n) : (a ++ b).take n = a := by
  subst h; exact List.take_left _ _

theorem drop_append_len (a b : List Nat) (n : Nat) (h : a.length = n) : (a ++ b).drop n = b := by
  subst h; exact List.drop_left _ _

/-- The repack step on an encoder result `props ++ len8 ++ payload` sitting in
an allocation of `size` bytes. -/
theorem lzma_repack_spec (props len8 payload : List Nat) (size : Nat)
    (hp : props.length = 5) (hl : len8.length = 8)
    (hfit : 13 + payload.length ≤ size) (hsz : size < SIZE_MOD) :
    swfpack.lzma_repack (props ++ len8 ++ payload) size (size - (13 + payload.length))
      = some (le_bytes 4 (payload.length % UINT32_MOD) ++ props ++ payload
                ++ (props ++ len8 ++ payload).drop (9 + payload.length),
              9 + payload.length) := by
  have hM : SIZE_MOD = 18446744073709551616 := rfl
  have h2 : size_sub (size - (13 + payload.length)) (SIZE_MOD - 4)
      = size - (13 + payload.length) + 4 := by
    rw [size_sub_of_lt _ _ (by omega)]; omega
  have h3 : size_sub size (size - (13 + payload.length) + 4) = 9 + payload.length := by
    rw [size_sub_of_le _ _ (by omega)]; omega
  have h4 : size_sub (9 + payload.length) sizeof_LZMA_SWF_header = payload.length := by
    unfold sizeof_LZMA_SWF_header
    rw [size_sub_of_le _ _ (by omega)]; omega
  have h5 : size_sub 0 (SIZE_MOD - 4) = 4 := by
    rw [size_sub_of_lt _ _ (by omega)]; omega
  have hE : (props ++ len8 ++ payload).length = 13 + payload.length := by
    simp [hp, hl]; omega
  have r1 : readAt (props ++ len8 ++ payload) 0 5 = some props := by
    rw [readAt_zero _ _ (by omega), List.append_assoc,
      List.take_append_of_le_length (by omega), ← hp, List.take_length]
  have hdrop4 : (props ++ len8 ++ payload).drop 4 = props.drop 4 ++ len8 ++ payload := by
    rw [List.append_assoc, List.drop_append_of_le_length (by omega), List.append_assoc]
  have r2 : readAt (props ++ len8 ++ payload) 4 (9 + payload.length)
      = some (props.drop 4 ++ len8 ++ payload) := by
    unfold readAt
    rw [if_pos (by omega), hdrop4, List.take_of_length_le (by simp [hp, hl]; omega)]
  have hd9 : (props.drop 4 ++ len8 ++ payload
      ++ (props ++ len8 ++ payload).drop (9 + payload.length)).drop sizeof_LZMA_SWF_header
      = payload ++ (props ++ len8 ++ payload).drop (9 + payload.length) := by
    have e : (props.drop 4 ++ len8).length = sizeof_LZMA_SWF_header := by
      simp [hp, hl, sizeof_LZMA_SWF_header]
    rw [List.append_assoc (props.drop 4 ++ len8), ← e, List.drop_left]
  unfold swfpack.lzma_repack
  simp only [size_diff_eq, h2, h3, h4, h5, r1, r2, hd9]
  rw [if_pos ⟨by omega, by unfold sizeof_LZMA_SWF_header; omega⟩]
  simp only [List.append_assoc]

/-! ## LZMA framing -/

/-- What `compress_lzma` returns when the encoder succeeds with
`props ++ len8 ++ payload` (5 + 8 + n bytes) inside the `size` bytes it was given. -/
theorem compress_lzma_spec (enc : LzmaEncoder) (header : SWF_header) (buffer : List Nat)
    (size : Nat) (props len8 payload : List Nat)
    (hinit : enc.init = LZMA_OK) (hsize : size ≤ buffer.length) (hsz : size < SIZE_MOD)
    (hp : props.length = 5) (hl : len8.length = 8)
    (henc : enc.lzma_code_FINISH (buffer.take size) size
      = (LZMA_STREAM_END, props ++ len8 ++ payload))
    (hfit : 13 + payload.length ≤ size) :
    swfpack.compress_lzma enc header buffer size
      = some (.buf (le_bytes 4 (payload.length % UINT32_MOD) ++ props ++ payload
                ++ (props ++ len8 ++ payload).drop (9 + payload.length)),
              9 + payload.length) := by
  have hE : (props ++ len8 ++ payload).length = 13 + payload.length := by
    simp [hp, hl]; omega
  have hcall : codec_call enc.lzma_code_FINISH (buffer.take size) size
      = some (LZMA_STREAM_END, props ++ len8 ++ payload) := by
    unfold codec_call
    simp only [henc]
    rw [if_pos (by rw [hE]; exact hfit)]
  have hrep := lzma_repack_spec props len8 payload size hp hl hfit hsz
  unfold swfpack.compress_lzma
  rw [if_neg (by rw [hinit]; simp), readAt_zero _ _ hsize]
  simp only [hcall, hE, hrep]
  simp

/-- C4: when the encoder succeeds with `E = props ++ len8 ++ payload` (5
properties bytes, the 8-byte length field, the payload), `compress_lzma` returns
a buffer and stores `|E| - 4` in `*size`; that region of `|E| - 4` bytes has the
encoder's 5 properties bytes at offsets 4..8 and the payload, unchanged and in
order, from offset 9 on. -/
theorem compress_lzma_layout (enc : LzmaEncoder) (header : SWF_header) (buffer : List Nat)
    (size : Nat) (props len8 payload : List Nat)
    (hinit : enc.init = LZMA_OK) (hsize : size ≤ buffer.length) (hsz : size < SIZE_MOD)
    (hp : props.length = 5) (hl : len8.length = 8)
    (henc : enc.lzma_code_FINISH (buffer.take size) size
      = (LZMA_STREAM_END, props ++ len8 ++ payload))
    (hfit : (props ++ len8 ++ payload).length ≤ size) :
    ∃ buf, swfpack.compress_lzma enc header buffer size
        = some (.buf buf, (props ++ len8 ++ payload).length - 4) ∧
      (buf.take ((props ++ len8 ++ payload).length - 4)).length
        = (props ++ len8 ++ payload).length - 4 ∧
      ((buf.take ((props ++ len8 ++ payload).length - 4)).drop 4).take 5 = props ∧
      (buf.take ((props ++ len8 ++ payload).length - 4)).drop 9 = payload := by
  have hE : (props ++ len8 ++ payload).length = 13 + payload.length := by
    simp [hp, hl]; omega
  have hn : (props ++ len8 ++ payload).length - 4 = 9 + payload.length := by omega
  have h := compress_lzma_spec enc header buffer size props len8 payload hinit hsize hsz hp hl
    henc (by omega)
  have h4 : (le_bytes 4 (payload.length % UINT32_MOD)).length = 4 := le_bytes_length _ _
  have hreg : (le_bytes 4 (payload.length % UINT32_MOD) ++ props ++ payload
      ++ (props ++ len8 ++ payload).drop (9 + payload.length)).take (9 + payload.length)
      = le_bytes 4 (payload.length % UINT32_MOD) ++ props ++ payload := by
    rw [List.take_append_of_le_length (by simp [h4, hp]; omega),
      List.take_of_length_le (by simp [h4, hp]; omega)]
  refine ⟨_, by rw [hn]; exact h, ?_, ?_, ?_⟩
  · rw [hn, hreg]; simp [h4, hp]; omega
  · rw [hn, hreg, List.append_assoc, drop_append_len _ _ 4 h4, take_append_len _ _ 5 hp]
  · rw [hn, hreg]
    have e : (le_bytes 4 (payload.length % UINT32_MOD) ++ props).length = 9 := by
      simp [h4, hp]
    rw [drop_append_len _ _ 9 e]

/-- C4 on a concrete encoder result of 14 bytes: the region has 10 bytes, the
properties sit at offsets 4..8 and the one payload byte at offset 9. -/
theorem compress_lzma_layout_witness :
    ∃ buf, swfpack.compress_lzma zeroEncoder ⟨(90, 87, 83), 13, 24⟩ (List.replicate 16 0) 16
        = some (.buf buf, 10) ∧
      ((buf.take 10).drop 4).take 5 = [93, 0, 0, 128, 0] ∧ (buf.take 10).drop 9 = [16] := by
  obtain ⟨buf, h1, _, h3, h4⟩ := compress_lzma_layout zeroEncoder ⟨(90, 87, 83), 13, 24⟩
    (List.replicate 16 0) 16 [93, 0, 0, 128, 0] (List.replicate 8 255) [16]
    (by decide) (by decide) (by decide) (by decide) (by decide) (by decide) (by decide)
  exact ⟨buf, h1, h3, h4⟩

/-- C5 as stated fails: an encoder result of 14 bytes has a 1-byte payload, and
the length field `compress_lzma` writes is 1, not 1 + 5. -/
theorem compressed_length_counterexample :
    (zeroEncoder.lzma_code_FINISH (List.replicate 16 0) 16).2.length = 14 ∧
    swfpack.compress_lzma zeroEncoder ⟨(90, 87, 83), 13, 24⟩ (List.replicate 16 0) 16
      = some (.buf [1, 0, 0, 0, 93, 0, 0, 128, 0, 16, 255, 255, 255, 16], 10) ∧
    le_value [1, 0, 0, 0] = 14 - 5 - 8 ∧
    le_value [1, 0, 0, 0] ≠ (14 - 5 - 8) + 5 := by
  decide

/-- C5 amended: the 4-byte little-endian field at offset 0 of the region
returned by `compress_lzma` holds the encoded payload length
`total_encoded_length - 5 - 8` (as a `uint32_t`): the byte count of the payload
alone, the 5 properties bytes not included. -/
theorem compressed_length_field (enc : LzmaEncoder) (header : SWF_header) (buffer : List Nat)
    (size : Nat) (props len8 payload : List Nat)
    (hinit : enc.init = LZMA_OK) (hsize : size ≤ buffer.length) (hsz : size < SIZE_MOD)
    (hp : props.length = 5) (hl : len8.length = 8)
    (henc : enc.lzma_code_FINISH (buffer.take size) size
      = (LZMA_STREAM_END, props ++ len8 ++ payload))
    (hfit : (props ++ len8 ++ payload).length ≤ size) :
    ∃ buf n, swfpack.compress_lzma enc header buffer size = some (.buf buf, n) ∧
      le_value (buf.take 4) = ((props ++ len8 ++ payload).length - 5 - 8) % UINT32_MOD ∧
      le_value (buf.take 4) = payload.length % UINT32_MOD := by
  have hE : (props ++ len8 ++ payload).length = 13 + payload.length := by
    simp [hp, hl]; omega
  have h := compress_lzma_spec enc header buffer size props len8 payload hinit hsize hsz hp hl
    henc (by omega)
  have h4 : (le_bytes 4 (payload.length % UINT32_MOD)).length = 4 := le_bytes_length _ _
  have ht : (le_bytes 4 (payload.length % UINT32_MOD) ++ props ++ payload
      ++ (props ++ len8 ++ payload).drop (9 + payload.length)).take 4
      = le_bytes 4 (payload.length % UINT32_MOD) := by
    rw [List.append_assoc, List.append_assoc, take_append_len _ _ 4 h4]
  have hv : le_value (le_bytes 4 (payload.length % UINT32_MOD))
      = payload.length % UINT32_MOD := by
    rw [le_value_le_bytes4, Nat.mod_mod]
  refine ⟨_, _, h, ?_, ?_⟩
  · rw [ht, hv, hE]
    congr 1
    omega
  · rw [ht, hv]

/-- C5 amended, on the 14-byte encoder result: the field holds 1. -/
theorem compressed_length_field_witness :
    ∃ buf n, swfpack.compress_lzma zeroEncoder ⟨(90, 87, 83), 13, 24⟩ (List.replicate 16 0) 16
        = some (.buf buf, n) ∧ le_value (buf.take 4) = 1 := by
  obtain ⟨buf, n, h1, _, h3⟩ := compressed_length_field zeroEncoder ⟨(90, 87, 83), 13, 24⟩
    (List.replicate 16 0) 16 [93, 0, 0, 128, 0] (List.replicate 8 255) [16]
    (by decide) (by decide) (by decide) (by decide) (by decide) (by decide) (by decide)
  exact ⟨buf, n, h1, h3⟩

/-- C6 as stated fails: a region whose `compressed_length` field is 8 (payload
of 3 bytes plus the 5 properties bytes) is translated to canonical framing and
back into a region whose first 4 bytes are 3, 0, 0, 0. -/
theorem framing_counterexample :
    swfpack.lzma_header ⟨(90, 87, 83), 13, 100⟩ [8, 0, 0, 0, 93, 0, 0, 128, 0, 1, 2, 3]
      = some [93, 0, 0, 128, 0, 92, 0, 0, 0, 0, 0, 0, 0] ∧
    swfpack.lzma_payload [8, 0, 0, 0, 93, 0, 0, 128, 0, 1, 2, 3] 12 = some [1, 2, 3] ∧
    swfpack.lzma_repack ([93, 0, 0, 128, 0, 92, 0, 0, 0, 0, 0, 0, 0] ++ [1, 2, 3]) 16 0
      = some ([3, 0, 0, 0, 93, 0, 0, 128, 0, 1, 2, 3, 0, 1, 2, 3], 12) ∧
    [3, 0, 0, 0] ≠ [8, 0, 0, 0] := by
  decide

/-- C6 amended: translating a container-native region
`R = len4 ++ props ++ payload` to canonical framing as `decompress_lzma` does
(properties, then the 8-byte `total_length - 8`, then the payload) and back
with the repack of `compress_lzma` gives a region of `9 + |payload|` bytes made
of the payload byte count on 4 bytes, the original 5 properties bytes and the
original payload.  The first 4 bytes therefore equal the original
`compressed_length` exactly when that field held the payload byte count. -/
theorem framing_round (header : SWF_header) (len4 props payload : List Nat) (cap : Nat)
    (h4 : len4.length = 4) (hp : props.length = 5)
    (hcap : 13 + payload.length ≤ cap) (hsz : cap < SIZE_MOD) :
    ∃ hdr buf,
      swfpack.lzma_header header (len4 ++ props ++ payload) = some hdr ∧
      swfpack.lzma_payload (len4 ++ props ++ payload) (len4 ++ props ++ payload).length
        = some payload ∧
      hdr = props ++ le_bytes 8 (size_sub header.length sizeof_SWF_header) ∧
      swfpack.lzma_repack (hdr ++ payload) cap (cap - (hdr ++ payload).length)
        = some (buf, 9 + payload.length) ∧
      buf.take (9 + payload.length)
        = le_bytes 4 (payload.length % UINT32_MOD) ++ props ++ payload ∧
      ((buf.take (9 + payload.length)).drop 4).take 5 = props ∧
      (buf.take 4 = len4 ↔ len4 = le_bytes 4 (payload.length % UINT32_MOD)) := by
  have hR : (len4 ++ props ++ payload).length = 9 + payload.length := by
    simp [h4, hp]; omega
  have hl8 : (le_bytes 8 (size_sub header.length sizeof_SWF_header)).length = 8 :=
    le_bytes_length _ _
  have hl4 : (le_bytes 4 (payload.length % UINT32_MOD)).length = 4 := le_bytes_length _ _
  have r1 : readAt (len4 ++ props ++ payload) 4 5 = some props := by
    unfold readAt
    rw [if_pos (by omega), List.append_assoc, drop_append_len _ _ 4 h4,
      take_append_len _ _ 5 hp]
  have r2 : swfpack.lzma_payload (len4 ++ props ++ payload) (len4 ++ props ++ payload).length
      = some payload := by
    unfold swfpack.lzma_payload readAt sizeof_LZMA_SWF_header
    rw [hR, size_sub_of_le _ _ (by omega), if_pos (by omega),
      drop_append_len _ _ 9 (by simp [h4, hp])]
    simp
  have hlen : (props ++ le_bytes 8 (size_sub header.length sizeof_SWF_header) ++ payload).length
      = 13 + payload.length := by
    simp [hp, hl8]; omega
  have hrep := lzma_repack_spec props (le_bytes 8 (size_sub header.length sizeof_SWF_header))
    payload cap hp hl8 hcap hsz
  have hreg : (le_bytes 4 (payload.length % UINT32_MOD) ++ props ++ payload
      ++ (props ++ le_bytes 8 (size_sub header.length sizeof_SWF_header) ++ payload).drop
        (9 + payload.length)).take (9 + payload.length)
      = le_bytes 4 (payload.length % UINT32_MOD) ++ props ++ payload :=
    take_append_len _ _ _ (by simp [hl4, hp]; omega)
  have ht4 : (le_bytes 4 (payload.length % UINT32_MOD) ++ props ++ payload
      ++ (props ++ le_bytes 8 (size_sub header.length sizeof_SWF_header) ++ payload).drop
        (9 + payload.length)).take 4
      = le_bytes 4 (payload.length % UINT32_MOD) := by
    rw [List.append_assoc, List.append_assoc, take_append_len _ _ 4 hl4]
  refine ⟨_, _, ?_, r2, rfl, ?_, hreg, ?_, ?_⟩
  · unfold swfpack.lzma_header
    rw [r1]
  · rw [hlen]; exact hrep
  · rw [hreg, List.append_assoc, drop_append_len _ _ 4 hl4, take_append_len _ _ 5 hp]
  · rw [ht4]
    exact ⟨fun h => h.symm, fun h => h.symm⟩

/-- C6 amended, on a region produced with the payload byte count in its length
field: the translation there and back reproduces its 12 bytes. -/
theorem framing_round_witness :
    ∃ hdr buf,
      swfpack.lzma_header ⟨(90, 87, 83), 13, 100⟩ ([3, 0, 0, 0] ++ [93, 0, 0, 128, 0] ++ [1, 2, 3])
        = some hdr ∧
      swfpack.lzma_repack (hdr ++ [1, 2, 3]) 16 (16 - (hdr ++ [1, 2, 3]).length)
        = some (buf, 12) ∧
      buf.take 12 = [3, 0, 0, 0, 93, 0, 0, 128, 0, 1, 2, 3] := by
  obtain ⟨hdr, buf, h1, _, _, h4, h5, _, _⟩ := framing_round ⟨(90, 87, 83), 13, 100⟩
    [3, 0, 0, 0] [93, 0, 0, 128, 0] [1, 2, 3] 16 (by decide) (by decide) (by decide) (by decide)
  exact ⟨hdr, buf, h1, h4, h5.trans (by decide)⟩

/-! ## Decompression bridges -/

theorem codec_call_within (f : List Nat → Nat → Int × List Nat) (inp : List Nat) (room : Nat)
    (h : (f inp room).2.length ≤ room) : codec_call f inp room = some (f inp room) := by
  unfold codec_call
  simp only [if_pos h]

theorem swfpack_decompress_zlib_eq (z : Zlib) (header : SWF_header) (buffer : List Nat)
    (hroom : (z.inflate buffer header.length).2.length ≤ header.length) :
    swfpack.decompress_zlib z header buffer buffer.length
      = if z.inflateInit ≠ Z_OK then some .NULL
        else if (z.inflate buffer header.length).1 ≠ Z_STREAM_END then some .NULL
        else some (.buf (z.inflate buffer header.length).2) := by
  unfold swfpack.decompress_zlib
  simp only [readAt_full, codec_call_within _ _ _ hroom]

theorem cswf_decompress_zlib_eq (z : Zlib) (header : SWF_header) (buffer : List Nat)
    (hroom : (z.inflate buffer header.length).2.length ≤ header.length) :
    cswf.decompress_zlib z header buffer buffer.length
      = if z.inflateInit ≠ Z_OK then some .NULL
        else if (z.inflate buffer header.length).1 ≠ Z_STREAM_END then some .NULL
        else some (.buf (z.inflate buffer header.length).2) := by
  unfold cswf.decompress_zlib
  simp only [readAt_full, codec_call_within _ _ _ hroom]

/-- C8 as stated fails: with `total_length = 100` the expected output is 92
bytes; a stream that ends cleanly after 3 bytes is accepted by `decompress_zlib`
of both programs, and so is one that ends cleanly after 95 bytes. -/
theorem inflate_size_counterexample :
    swfpack.decompress_zlib zeroZlib ⟨(67, 87, 83), 10, 100⟩ [3] 1 = some (.buf [0, 0, 0]) ∧
    cswf.decompress_zlib zeroZlib ⟨(67, 87, 83), 10, 100⟩ [3] 1 = some (.buf [0, 0, 0]) ∧
    swfpack.decompress_zlib zeroZlib ⟨(67, 87, 83), 10, 100⟩ [95] 1
      = some (.buf (List.replicate 95 0)) ∧
    (zeroZlib.inflate [3] 100).1 = Z_STREAM_END ∧ (zeroZlib.inflate [3] 100).2.length ≠ 100 - 8 := by
  decide

/-- C8 amended: `decompress_zlib` (both programs) returns `NULL` exactly when
`inflateInit` fails or `inflate`, given `total_length` bytes of output room,
does not return `Z_STREAM_END`; otherwise it returns the bytes inflate wrote,
however many they are.  On a `NULL` for a `C` header both programs stop with
the decompression failure. -/
theorem decompress_zlib_null_iff (z : Zlib) (dec : LzmaDecoder) (header : SWF_header)
    (buffer : List Nat)
    (hroom : (z.inflate buffer header.length).2.length ≤ header.length) :
    (swfpack.decompress_zlib z header buffer buffer.length = some .NULL
      ↔ z.inflateInit ≠ Z_OK ∨ (z.inflate buffer header.length).1 ≠ Z_STREAM_END) ∧
    (cswf.decompress_zlib z header buffer buffer.length = some .NULL
      ↔ z.inflateInit ≠ Z_OK ∨ (z.inflate buffer header.length).1 ≠ Z_STREAM_END) ∧
    (z.inflateInit = Z_OK → (z.inflate buffer header.length).1 = Z_STREAM_END →
      swfpack.decompress_zlib z header buffer buffer.length
        = some (.buf (z.inflate buffer header.length).2) ∧
      cswf.decompress_zlib z header buffer buffer.length
        = some (.buf (z.inflate buffer header.length).2)) ∧
    (header.signature.1 = SWF_SIGNATURE_C →
      (z.inflateInit ≠ Z_OK ∨ (z.inflate buffer header.length).1 ≠ Z_STREAM_END) →
      swfpack.decompress_stage z dec header buffer buffer.length
        = some (.error .decompression_failed) ∧
      cswf.decompress_stage z dec header buffer buffer.length
        = some (.error .decompression_failed)) := by
  have hs := swfpack_decompress_zlib_eq z header buffer hroom
  have hc := cswf_decompress_zlib_eq z header buffer hroom
  have hiff : ((if z.inflateInit ≠ Z_OK then some Ptr.NULL
        else if (z.inflate buffer header.length).1 ≠ Z_STREAM_END then some .NULL
        else some (.buf (z.inflate buffer header.length).2)) = some Ptr.NULL)
      ↔ z.inflateInit ≠ Z_OK ∨ (z.inflate buffer header.length).1 ≠ Z_STREAM_END := by
    by_cases h1 : z.inflateInit = Z_OK <;>
      by_cases h2 : (z.inflate buffer header.length).1 = Z_STREAM_END <;> simp [h1, h2]
  refine ⟨by rw [hs]; exact hiff, by rw [hc]; exact hiff, ?_, ?_⟩
  · intro h1 h2
    rw [hs, hc]
    simp [h1, h2]
  · intro hsig hfail
    have hF : header.signature.1 ≠ SWF_SIGNATURE_F := by rw [hsig]; decide
    have e1 := (hiff.mpr hfail)
    constructor
    · unfold swfpack.decompress_stage
      simp only [if_pos hF, if_pos hsig, hs, e1]
    · unfold cswf.decompress_stage
      simp only [if_pos hF, if_pos hsig, hc, e1]

/-- C8 amended, on a stream that does not reach its end (it needs 200 bytes of
room, 100 are there): `NULL`, and the programs stop. -/
theorem decompress_zlib_null_iff_witness :
    swfpack.decompress_zlib zeroZlib ⟨(67, 87, 83), 10, 100⟩ [200] 1 = some .NULL ∧
    swfpack.decompress_stage zeroZlib zeroDecoder ⟨(67, 87, 83), 10, 100⟩ [200] 1
      = some (.error .decompression_failed) := by
  have h := decompress_zlib_null_iff zeroZlib zeroDecoder ⟨(67, 87, 83), 10, 100⟩ [200]
    (by decide)
  exact ⟨h.1.mpr (Or.inr (by decide)), (h.2.2.2 (by decide) (Or.inr (by decide))).1⟩

/-- C9, the code at the failing input: a `ZWS` body of `total_length = 16`
(8 bytes expected) whose LZMA region stops after the 9-byte header.  The final
decoder call reports an error (code 10) and writes nothing, yet
`decompress_lzma` of both programs returns a buffer, not `NULL`, and swfpack
goes on with `size = 8`. -/
theorem decompress_lzma_ignores_status :
    (zeroDecoder.lzma_code_FINISH [93, 0, 0, 128, 0, 8, 0, 0, 0, 0, 0, 0, 0] 16 [] 16)
      = (10, []) ∧
    swfpack.decompress_lzma zeroDecoder ⟨(90, 87, 83), 13, 16⟩ [0, 0, 0, 0, 93, 0, 0, 128, 0] 9
      = some (.buf []) ∧
    cswf.decompress_lzma zeroDecoder ⟨(90, 87, 83), 13, 16⟩ [0, 0, 0, 0, 93, 0, 0, 128, 0] 9
      = some (.buf []) ∧
    swfpack.decompress_stage zeroZlib zeroDecoder ⟨(90, 87, 83), 13, 16⟩
      [0, 0, 0, 0, 93, 0, 0, 128, 0] 9 = some (.ok ([], 8)) := by
  decide

/-! ## The envelope length -/

theorem read_header_bytes (s0 v L : Nat) (rest : List Nat)
    (hs : s0 = 70 ∨ s0 = 67 ∨ s0 = 90) (hL : L < UINT32_MOD) :
    read_header (header_bytes ⟨(s0, 87, 83), v, L⟩ ++ rest) = .ok ⟨(s0, 87, 83), v, L⟩ := by
  have hlen : 8 ≤ (header_bytes ⟨(s0, 87, 83), v, L⟩ ++ rest).length := by
    rw [List.length_append, header_bytes_length]; omega
  have hv : valid_signature (header_bytes ⟨(s0, 87, 83), v, L⟩ ++ rest) := by
    simp [valid_signature, header_bytes, hs]
  have hparse := parse_header_bytes ⟨(s0, 87, 83), v, L⟩ rest
  rw [(read_header_ok_iff _ hlen).mpr hv, hparse]
  simp only [Nat.mod_eq_of_lt hL]

theorem drop_header_bytes (h : SWF_header) (rest : List Nat) :
    (header_bytes h ++ rest).drop sizeof_SWF_header = rest :=
  drop_append_len _ _ 8 (header_bytes_length h)

/-- What swfpack does with a raw (`F`) file when asked to decompress. -/
theorem main_raw_decompress (z : Zlib) (dec : LzmaDecoder) (enc : LzmaEncoder) (v L : Nat)
    (rest : List Nat) (hL : L < UINT32_MOD) :
    swfpack.main z dec enc ⟨false, true, false⟩ (header_bytes ⟨(70, 87, 83), v, L⟩ ++ rest)
      = some (.written (header_bytes ⟨(70, 87, 83), v, L⟩ ++ rest.take L) false) := by
  unfold swfpack.main
  rw [read_header_bytes 70 v L rest (Or.inl rfl) hL]
  simp only [drop_header_bytes]
  have hst : swfpack.decompress_stage z dec ⟨(70, 87, 83), v, L⟩ (rest.take L)
      (rest.take L).length = some (.ok (rest.take L, (rest.take L).length)) := by
    unfold swfpack.decompress_stage
    rw [if_neg (by simp [SWF_SIGNATURE_F])]
  rw [hst]
  simp only [swfpack.convert, swfpack.write_file, readAt_full]
  simp [SWF_SIGNATURE_F]

/-- C10 as stated fails: an `FWS` envelope with `total_length = 0` is parsed
and processed (swfpack writes it back when asked to decompress), and for a `CWS`
envelope with `total_length = 0` the body size `total_length - 8` is computed
and wraps around to `2 ^ 64 - 8`. -/
theorem length_check_counterexample :
    read_header [70, 87, 83, 10, 0, 0, 0, 0] = .ok ⟨(70, 87, 83), 10, 0⟩ ∧
    swfpack.main zeroZlib zeroDecoder zeroEncoder ⟨false, true, false⟩
        [70, 87, 83, 10, 0, 0, 0, 0] = some (.written [70, 87, 83, 10, 0, 0, 0, 0] false) ∧
    read_header [67, 87, 83, 10, 0, 0, 0, 0, 0] = .ok ⟨(67, 87, 83), 10, 0⟩ ∧
    swfpack.decompress_stage zeroZlib zeroDecoder ⟨(67, 87, 83), 10, 0⟩ [] 0
      = some (.ok ([], 18446744073709551608)) := by
  decide

/-- C10 amended: `total_length` is not checked.  An envelope with a valid
signature is accepted whatever its `total_length` is (values below 8
included), and swfpack asked to decompress a raw file writes the header back
followed by the payload bytes that are there, at most `total_length` of them. -/
theorem length_not_checked (z : Zlib) (dec : LzmaDecoder) (enc : LzmaEncoder) (s0 v L : Nat)
    (rest : List Nat) (hs : s0 = 70 ∨ s0 = 67 ∨ s0 = 90) (hL : L < UINT32_MOD) :
    read_header (header_bytes ⟨(s0, 87, 83), v, L⟩ ++ rest) = .ok ⟨(s0, 87, 83), v, L⟩ ∧
    swfpack.main z dec enc ⟨false, true, false⟩ (header_bytes ⟨(70, 87, 83), v, L⟩ ++ rest)
      = some (.written (header_bytes ⟨(70, 87, 83), v, L⟩ ++ rest.take L) false) :=
  ⟨read_header_bytes s0 v L rest hs hL, main_raw_decompress z dec enc v L rest hL⟩

/-- C10 amended, at `total_length = 3`: the envelope is accepted and three
payload bytes are written back. -/
theorem length_not_checked_witness :
    read_header (header_bytes ⟨(90, 87, 83), 13, 3⟩ ++ [1, 2, 3, 4, 5])
      = .ok ⟨(90, 87, 83), 13, 3⟩ ∧
    swfpack.main zeroZlib zeroDecoder zeroEncoder ⟨false, true, false⟩
        (header_bytes ⟨(70, 87, 83), 13, 3⟩ ++ [1, 2, 3, 4, 5])
      = some (.written (header_bytes ⟨(70, 87, 83), 13, 3⟩ ++ [1, 2, 3]) false) :=
  ⟨(length_not_checked zeroZlib zeroDecoder zeroEncoder 90 13 3 [1, 2, 3, 4, 5]
      (by decide) (by decide)).1,
   (length_not_checked zeroZlib zeroDecoder zeroEncoder 70 13 3 [1, 2, 3, 4, 5]
      (by decide) (by decide)).2⟩

/-! ## Round trip through the codec bridges -/

/-- Native-framing inversion gives inversion on the synthesised header when the
length field the encoder writes is the body length. -/
theorem lzma_bridge_inverts_of_native (enc : LzmaEncoder) (dec : LzmaDecoder) (B : List Nat)
    (hnat : lzma_native_inverts enc dec B)
    (hfield : ∀ E, enc.lzma_code_FINISH B B.length = (LZMA_STREAM_END, E) →
      (E.drop 5).take 8 = le_bytes 8 B.length) :
    lzma_bridge_inverts enc dec B := by
  intro E hE
  obtain ⟨h13, hinit, o1, hrun, hout⟩ := hnat E hE
  have h5 : E.take 13 = E.take 5 ++ le_bytes 8 B.length := by
    rw [← hfield E hE]
    have e : E.take 13 = (E.take 13).take 5 ++ (E.take 13).drop 5 :=
      (List.take_append_drop 5 _).symm
    rw [e, List.take_take, List.drop_take]
    rfl
  rw [h5] at hrun hout
  exact ⟨h13, hinit, o1, hrun, hout⟩

end SWF
